import Mathlib

/-!
Verification of the data-shaping core of `pltt.py`: the column classifier
(lines 88-100) and the frame expander / natural-animation passthrough
(lines 169-190).  Tabular data is embedded shallowly: a column is a name,
a pandas dtype tag and a list of cell values; the frame expander works on
a row-major view (a row is a list of cell values).  The external
best-effort timestamp parser behind `pd.to_datetime` is a parameter
`p : String → Option Int` of all classifier definitions; theorems
quantify over it.
-/

namespace Pltt

/-- Pandas dtype tags relevant to the app's dataframes. -/
inductive Dtype where
  | float64
  | int64
  | float32
  | int32
  | object
  | datetime64
  | boolTag
deriving DecidableEq, Repr

/-- Scalar cell values: integers, floats (payload modelled as a rational),
text, timestamps (an abstract time ordinal) and booleans. -/
inductive Value where
  | vInt (i : Int)
  | vFloat (q : ℚ)
  | vStr (s : String)
  | vTime (t : Int)
  | vBool (b : Bool)
deriving DecidableEq, Repr

/-- A dataframe column: its label, dtype and cell values (in row order). -/
structure Col where
  name : String
  dtype : Dtype
  vals : List Value
deriving DecidableEq, Repr

/-- Does a cell value fit a dtype?  `object` is pandas' catch-all and
accepts any value. -/
def typeOk : Dtype → Value → Bool
  | .float64, .vFloat _ => true
  | .float32, .vFloat _ => true
  | .int64, .vInt _ => true
  | .int32, .vInt _ => true
  | .datetime64, .vTime _ => true
  | .boolTag, .vBool _ => true
  | .object, _ => true
  | _, _ => false

/-- A value is numeric when it is an integer or a float. -/
def Value.isNumeric : Value → Bool
  | .vInt _ => true
  | .vFloat _ => true
  | _ => false

/-- Line 88: `df.select_dtypes(include=['float64', 'int64']).columns.tolist()`.
`select_dtypes` keeps exactly the columns whose dtype is one of the named
dtypes, in column order. -/
def numeric_cols (df : List Col) : List String :=
  (df.filter (fun c => c.dtype = Dtype.float64 ∨ c.dtype = Dtype.int64)).map Col.name

/-- Line 89: `[col for col in df.columns if pd.api.types.is_datetime64_any_dtype(df[col])]`. -/
def nativeDatetimeCols (df : List Col) : List String :=
  (df.filter (fun c => c.dtype = Dtype.datetime64)).map Col.name

/-- Element-level parse used by `pd.to_datetime` on an object column: a
text cell goes through the parser `p`; the model treats any non-text cell
in an object column as unparseable. -/
def parseVal (p : String → Option Int) : Value → Option Value
  | .vStr s => (p s).map Value.vTime
  | _ => none

/-- Line 95: `pd.to_datetime(df[col])` over a whole object column: every
cell must parse, otherwise the call raises (modelled as `none`). -/
def toDatetimeAll (p : String → Option Int) : List Value → Option (List Value)
  | [] => some []
  | v :: vs =>
    match parseVal p v, toDatetimeAll p vs with
    | some w, some ws => some (w :: ws)
    | _, _ => none

/-- Lines 93-100, one column of the coercion loop: an object column whose
cells all parse is upgraded to `datetime64` with the parsed values and its
name is recorded (`true`); any other column is left unchanged (`false`).
The bare `except: pass` means failure is silent. -/
def coerceCol (p : String → Option Int) (c : Col) : Col × Bool :=
  if c.dtype = Dtype.object then
    match toDatetimeAll p c.vals with
    | some ws => (⟨c.name, Dtype.datetime64, ws⟩, true)
    | none => (c, false)
  else (c, false)

/-- Lines 88-100, the dataframe after classification: the coercion loop
runs (and mutates `df` in place) only when no native datetime column
exists. -/
def classifyDF (p : String → Option Int) (df : List Col) : List Col :=
  if nativeDatetimeCols df = [] then df.map (fun c => (coerceCol p c).1) else df

/-- Lines 88-100, the `datetime_cols` list after classification: the
native datetime columns if any exist, otherwise the names of the object
columns the coercion loop upgraded, appended in column order. -/
def datetime_cols (p : String → Option Int) (df : List Col) : List String :=
  if nativeDatetimeCols df = [] then
    (df.filter (fun c => (coerceCol p c).2)).map Col.name
  else nativeDatetimeCols df

/-- Modelled from the spec: the spec's "declared/runtime type is integer
or floating-point (of any width)" as a predicate on dtype tags, for
comparison with the source's `select_dtypes(include=['float64', 'int64'])`. -/
def numericTypedSpec : Dtype → Bool
  | .float64 => true
  | .int64 => true
  | .float32 => true
  | .int32 => true
  | _ => false

/-- The numeric value of a decimal digit character. -/
def digitVal (c : Char) : Option Nat :=
  if '0' ≤ c ∧ c ≤ '9' then some (c.toNat - '0'.toNat) else none

/-- Split a character list on `'-'`. -/
def splitDash : List Char → List (List Char)
  | [] => [[]]
  | c :: cs =>
    if c = '-' then [] :: splitDash cs
    else
      match splitDash cs with
      | g :: gs => (c :: g) :: gs
      | [] => [[c]]

/-- Read a nonempty all-digit character list as a number. -/
def readDigits : Option Nat → List Char → Option Nat
  | acc, [] => acc
  | acc, c :: cs =>
    readDigits (acc.bind (fun n => (digitVal c).map (fun d => 10 * n + d))) cs

/-- A concrete instance of the external timestamp parser, accepting ISO
dates `YYYY-MM-DD` (the time ordinal returned is the digits read as one
number); used only to instantiate witnesses (all classifier theorems are
parametric in the parser). -/
def isoDate (s : String) : Option Int :=
  match splitDash s.data with
  | [y, m, d] =>
    match readDigits (some 0) y, readDigits (some 0) m, readDigits (some 0) d with
    | some yn, some mn, some dn =>
      if y.length = 4 ∧ m.length = 2 ∧ d.length = 2 ∧ 1 ≤ mn ∧ mn ≤ 12 ∧ 1 ≤ dn ∧ dn ≤ 31 then
        some (Int.ofNat (yn * 10000 + mn * 100 + dn))
      else none
    | _, _, _ => none
  | _ => none

/-- A dataframe row: the cell values, one per column, in column order. -/
abbrev Row := List Value

/-- Lines 186-187: `dfa = df.head(i).copy(); dfa['animation_frame'] = i` —
the first `i` rows, each extended with the frame tag `i` as a new last
column. -/
def frameBlock (rows : List Row) (i : Nat) : List Row :=
  (rows.take i).map (fun r => r ++ [Value.vInt (Int.ofNat i)])

/-- Lines 184-188: `for i in np.arange(start, obs + 1): ...` — the tagged
prefixes for `i = start, ..., obs`, concatenated in that order
(`np.arange(start, obs + 1)` is empty when `start > obs`). -/
def plotReadyRows (rows : List Row) (start : Nat) : List Row :=
  ((List.range' start (rows.length + 1 - start)).map (frameBlock rows)).flatten

/-- The frame tag of an expanded row: its last cell (the
`animation_frame` column). -/
def rowTag (r : Row) : Option Value := r.getLast?

/-- A row-major dataframe: the schema (column labels and dtypes, in
order) and the rows. -/
structure DFrame where
  schema : List (String × Dtype)
  rows : List Row
deriving DecidableEq, Repr

/-- The dtype of a named column, looked up in the schema. -/
def dtypeOf (df : DFrame) (c : String) : Option Dtype :=
  (df.schema.find? (fun nd => nd.1 = c)).map (fun nd => nd.2)

/-- The position of a named column in the schema. -/
def colIdx (df : DFrame) (c : String) : Nat :=
  df.schema.findIdx (fun nd => nd.1 = c)

/-- The sort key `sort_values` compares: the time ordinal of the cell in
the sort column. -/
def timeKey (idx : Nat) (r : Row) : Int :=
  match r.getD idx (Value.vInt 0) with
  | .vTime t => t
  | _ => 0

/-- Stable insertion of a row into a key-sorted list of rows. -/
def insertByKey (idx : Nat) (r : Row) : List Row → List Row
  | [] => [r]
  | s :: ss =>
    if timeKey idx r ≤ timeKey idx s then r :: s :: ss
    else s :: insertByKey idx r ss

/-- Line 177: `df.sort_values(by=x_col)` — ascending sort of the rows by
the sort column's time value.  Pandas' default sort kind is `quicksort`,
whose order among equal keys is unspecified; this model fixes one order
(stable insertion sort).  No theorem below depends on the order of ties. -/
def sortValuesBy (df : DFrame) (c : String) : DFrame :=
  ⟨df.schema, df.rows.foldr (insertByKey (colIdx df c)) []⟩

/-- Lines 169-190: the branch on the animation-frame selection.
`anim = some c` is the natural-column mode (`plot_ready_df = df.copy()`,
`animation_col = c`); `anim = none` builds synthetic frames: the rows are
first sorted when the x column's dtype is datetime (lines 175-177), then
expanded (lines 180-188).  `pd.concat` of zero frames leaves the initial
empty `pd.DataFrame()` (no columns), which the `start > obs` case
reflects. -/
def plotReady (df : DFrame) (xcol : String) (anim : Option String) (start : Nat) :
    DFrame × String :=
  match anim with
  | some c => (df, c)
  | none =>
    let df2 := if dtypeOf df xcol = some Dtype.datetime64 then sortValuesBy df xcol else df
    if start ≤ df2.rows.length then
      (⟨df2.schema ++ [("animation_frame", Dtype.int64)], plotReadyRows df2.rows start⟩,
        "animation_frame")
    else (⟨[], []⟩, "animation_frame")

/-! ### Frame expander lemmas -/

/-- Does an expanded row carry the frame tag `k`? -/
def hasTag (k : Nat) (r : Row) : Bool :=
  decide (rowTag r = some (Value.vInt (Int.ofNat k)))

/-- The frame tag of an expanded row, as a natural number. -/
def tagNat (r : Row) : Nat :=
  match rowTag r with
  | some (.vInt i) => i.toNat
  | _ => 0

theorem filter_frameBlock (rows : List Row) (i k : Nat) :
    (frameBlock rows i).filter (hasTag k) = if i = k then frameBlock rows i else [] := by
  unfold frameBlock
  rw [List.filter_map]
  have hcomp : (hasTag k ∘ fun r => r ++ [Value.vInt (Int.ofNat i)])
      = fun _ => decide (i = k) := by
    funext r
    by_cases h : i = k <;>
      simp [hasTag, rowTag, List.getLast?_concat, Function.comp, h]
  rw [hcomp]
  by_cases h : i = k <;> simp [h]

theorem filter_flatten_eq_nil (rows : List Row) (k : Nat) (ks : List Nat) (h : k ∉ ks) :
    ((ks.map (frameBlock rows)).flatten).filter (hasTag k) = [] := by
  induction ks with
  | nil => rfl
  | cons i ks ih =>
    simp only [List.mem_cons, not_or] at h
    simp only [List.map_cons, List.flatten_cons, List.filter_append]
    rw [filter_frameBlock, if_neg (fun hik => h.1 hik.symm), ih h.2, List.append_nil]

theorem filter_flatten_eq_block (rows : List Row) (k : Nat) (ks : List Nat)
    (hnd : ks.Nodup) (hk : k ∈ ks) :
    ((ks.map (frameBlock rows)).flatten).filter (hasTag k) = frameBlock rows k := by
  induction ks with
  | nil => cases hk
  | cons i ks ih =>
    simp only [List.map_cons, List.flatten_cons, List.filter_append]
    rcases List.mem_cons.mp hk with hik | hmem
    · subst hik
      rw [filter_frameBlock, if_pos rfl,
        filter_flatten_eq_nil rows k ks (List.nodup_cons.mp hnd).1, List.append_nil]
    · have hik : i ≠ k := fun hik => (List.nodup_cons.mp hnd).1 (hik ▸ hmem)
      rw [filter_frameBlock, if_neg hik, List.nil_append,
        ih (List.nodup_cons.mp hnd).2 hmem]

theorem tagNat_mem_frameBlock (rows : List Row) (i : Nat) (r : Row)
    (h : r ∈ frameBlock rows i) : tagNat r = i := by
  unfold frameBlock at h
  rcases List.mem_map.mp h with ⟨s, _, rfl⟩
  simp [tagNat, rowTag, List.getLast?_concat]

theorem tagNat_monotone (rows : List Row) (start : Nat) :
    List.Pairwise (fun r s : Row => tagNat r ≤ tagNat s) (plotReadyRows rows start) := by
  unfold plotReadyRows
  rw [List.pairwise_flatten]
  constructor
  · intro l hl
    rcases List.mem_map.mp hl with ⟨i, _, rfl⟩
    refine List.pairwise_of_forall_mem_list (fun r hr s hs => ?_)
    rw [tagNat_mem_frameBlock rows i r hr, tagNat_mem_frameBlock rows i s hs]
  · rw [List.pairwise_map]
    refine (List.pairwise_lt_range' start _).imp_of_mem (fun hi hj hij => ?_)
    intro r hr s hs
    rw [tagNat_mem_frameBlock rows _ r hr, tagNat_mem_frameBlock rows _ s hs]
    exact Nat.le_of_lt hij

theorem length_frameBlock (rows : List Row) (i : Nat) :
    (frameBlock rows i).length = min i rows.length := by
  simp [frameBlock]

theorem sum_range'_gauss (l : Nat) :
    ∀ s : Nat, 2 * (List.range' s l).sum + l = l * (2 * s + l) := by
  induction l with
  | zero => intro s; simp
  | succ n ih =>
    intro s
    rw [List.range'_succ, List.sum_cons]
    have h := ih (s + 1)
    nlinarith [h]

/-- A concrete 10-row dataset (single column, rows numbered 0..9). -/
def rows10 : List Row := (List.range 10).map (fun j => [Value.vInt (Int.ofNat j)])

/-- A concrete 7-row dataset (single column, rows numbered 0..6). -/
def rows7 : List Row := (List.range 7).map (fun j => [Value.vInt (Int.ofNat j)])

/-- A concrete 3-row dataset with text cells. -/
def rowsABC : List Row := [[Value.vStr "a"], [Value.vStr "b"], [Value.vStr "c"]]

/-- C1: for a non-empty dataset and `1 ≤ startRow ≤ totalRows`, the rows of
the expanded dataset tagged with frame id `k` (for any
`startRow ≤ k ≤ totalRows`) are exactly the first `k` rows of the source
dataset in source order, each with the tag appended, and the frame tags
appear in nondecreasing order along the expanded dataset (the per-frame
copies are concatenated in increasing order of `k`). -/
theorem frame_expander_cumulative_prefix (rows : List Row) (start k : Nat)
    (h1 : 1 ≤ start) (h2 : start ≤ rows.length)
    (hk1 : start ≤ k) (hk2 : k ≤ rows.length) :
    (plotReadyRows rows start).filter (hasTag k)
        = (rows.take k).map (fun r => r ++ [Value.vInt (Int.ofNat k)])
      ∧ List.Pairwise (fun r s : Row => tagNat r ≤ tagNat s) (plotReadyRows rows start) := by
  constructor
  · show _ = frameBlock rows k
    unfold plotReadyRows
    apply filter_flatten_eq_block rows k _ (List.nodup_range' _ _)
    rw [List.mem_range'_1]
    omega
  · exact tagNat_monotone rows start

/-- Witness for C1: dataset of 3 rows, `startRow = 2`, `k = 3`. -/
theorem frame_expander_cumulative_prefix_witness :
    (1 ≤ 2 ∧ 2 ≤ rowsABC.length ∧ 2 ≤ 3 ∧ 3 ≤ rowsABC.length)
      ∧ ((plotReadyRows rowsABC 2).filter (hasTag 3)
            = (rowsABC.take 3).map (fun r => r ++ [Value.vInt (Int.ofNat 3)])
          ∧ List.Pairwise (fun r s : Row => tagNat r ≤ tagNat s) (plotReadyRows rowsABC 2)) :=
  ⟨by decide,
    frame_expander_cumulative_prefix rowsABC 2 3 (by decide) (by decide) (by decide) (by decide)⟩

/-- C2 counterexample: `startRow = 20` on the 10-row dataset `rows10` does
not clamp to a single frame with `frame_id = 10` holding all 10 rows: the
loop bound `np.arange(20, 11)` is empty, so the expansion is empty. -/
theorem frame_expander_clamp_cex :
    plotReadyRows rows10 20 = [] ∧ plotReadyRows rows10 20 ≠ frameBlock rows10 10 := by
  decide

/-- C2 amended: when `startRow` exceeds the dataset's row count the
expander does not raise; it produces an empty expanded dataset (zero
frames), not a clamped single frame. -/
theorem frame_expander_out_of_range_empty (rows : List Row) (start : Nat)
    (h : rows.length < start) : plotReadyRows rows start = [] := by
  unfold plotReadyRows
  have h0 : rows.length + 1 - start = 0 := by omega
  rw [h0]
  rfl

/-- Witness for the amended C2: `startRow = 20` on the 10-row dataset. -/
theorem frame_expander_out_of_range_empty_witness :
    rows10.length < 20 ∧ plotReadyRows rows10 20 = [] :=
  ⟨by decide, frame_expander_out_of_range_empty rows10 20 (by decide)⟩

/-- C7: for `1 ≤ startRow ≤ totalRows` the expanded dataset has
`Σ_{k=startRow}^{totalRows} k` rows, i.e. twice the row count equals
`(startRow + totalRows) * (totalRows + 1 - startRow)`. -/
theorem frame_expander_row_count (rows : List Row) (start : Nat)
    (h1 : 1 ≤ start) (h2 : start ≤ rows.length) :
    (plotReadyRows rows start).length = (List.range' start (rows.length + 1 - start)).sum
      ∧ 2 * (plotReadyRows rows start).length
          = (start + rows.length) * (rows.length + 1 - start) := by
  have hp1 : (plotReadyRows rows start).length
      = (List.range' start (rows.length + 1 - start)).sum := by
    unfold plotReadyRows
    rw [List.length_flatten, List.map_map]
    congr 1
    have : ∀ i ∈ List.range' start (rows.length + 1 - start),
        (List.length ∘ frameBlock rows) i = i := by
      intro i hi
      rw [List.mem_range'_1] at hi
      simp only [Function.comp, length_frameBlock]
      omega
    rw [List.map_congr_left this, List.map_id']
  refine ⟨hp1, ?_⟩
  have hg := sum_range'_gauss (rows.length + 1 - start) start
  have he : 2 * start + (rows.length + 1 - start) = start + rows.length + 1 := by omega
  rw [he] at hg
  have hm : (rows.length + 1 - start) * (start + rows.length + 1)
      = (start + rows.length) * (rows.length + 1 - start) + (rows.length + 1 - start) := by
    ring
  rw [hm] at hg
  rw [hp1]
  exact Nat.add_right_cancel hg

/-- Witness for C7: `startRow = 5` on a 7-row dataset gives 18 rows. -/
theorem frame_expander_row_count_witness :
    ((1 ≤ 5 ∧ 5 ≤ rows7.length)
      ∧ ((plotReadyRows rows7 5).length = (List.range' 5 (rows7.length + 1 - 5)).sum
          ∧ 2 * (plotReadyRows rows7 5).length = (5 + rows7.length) * (rows7.length + 1 - 5)))
      ∧ (plotReadyRows rows7 5).length = 18 :=
  ⟨⟨by decide, frame_expander_row_count rows7 5 (by decide) (by decide)⟩, by decide⟩

/-- C9: in natural-column mode (`animation_frame != "None"`, lines
169-172) the frame expander is bypassed: the dataframe handed to the
renderer is the source dataframe itself (same schema, same rows, no added
frame column) and the supplied column is used as the frame key. -/
theorem natural_column_passthrough (df : DFrame) (xcol c : String) (start : Nat) :
    plotReady df xcol (some c) start = (df, c) := rfl

/-! ### Column classifier lemmas -/

theorem coerceCol_name (p : String → Option Int) (c : Col) :
    (coerceCol p c).1.name = c.name := by
  unfold coerceCol
  split
  · split <;> rfl
  · rfl

theorem coerceCol_of_flag_false (p : String → Option Int) (c : Col)
    (h : (coerceCol p c).2 = false) : (coerceCol p c).1 = c := by
  by_cases hobj : c.dtype = Dtype.object
  · cases ht : toDatetimeAll p c.vals with
    | some ws => simp [coerceCol, hobj, ht] at h
    | none => simp [coerceCol, hobj, ht]
  · simp [coerceCol, hobj]

theorem coerceCol_of_flag_true (p : String → Option Int) (c : Col)
    (h : (coerceCol p c).2 = true) :
    c.dtype = Dtype.object ∧ (coerceCol p c).1.dtype = Dtype.datetime64
      ∧ toDatetimeAll p c.vals = some (coerceCol p c).1.vals := by
  by_cases hobj : c.dtype = Dtype.object
  · cases ht : toDatetimeAll p c.vals with
    | some ws => simp [coerceCol, hobj, ht]
    | none => simp [coerceCol, hobj, ht] at h
  · simp [coerceCol, hobj] at h

theorem coerceCol_dtype_iff (p : String → Option Int) (c : Col)
    (h : c.dtype ≠ Dtype.datetime64) :
    ((coerceCol p c).1.dtype = Dtype.datetime64) ↔ (coerceCol p c).2 = true := by
  constructor
  · intro hd
    by_contra hf
    rw [coerceCol_of_flag_false p c (Bool.not_eq_true _ ▸ Bool.of_not_eq_true hf)] at hd
    exact h hd
  · intro ht
    exact (coerceCol_of_flag_true p c ht).2.1

theorem toDatetimeAll_eq_none (p : String → Option Int) (vs : List Value)
    (h : ∃ v ∈ vs, parseVal p v = none) : toDatetimeAll p vs = none := by
  induction vs with
  | nil => rcases h with ⟨v, hv, _⟩; cases hv
  | cons w ws ih =>
    rcases h with ⟨v, hv, hnone⟩
    rcases List.mem_cons.mp hv with rfl | hmem
    · unfold toDatetimeAll
      rw [hnone]
    · have ht := ih ⟨v, hmem, hnone⟩
      cases hp : parseVal p w <;> simp [toDatetimeAll, hp, ht]

theorem toDatetimeAll_length (p : String → Option Int) (vs ws : List Value)
    (h : toDatetimeAll p vs = some ws) : ws.length = vs.length := by
  induction vs generalizing ws with
  | nil => unfold toDatetimeAll at h; cases h; rfl
  | cons v vs ih =>
    unfold toDatetimeAll at h
    cases hp : parseVal p v with
    | none => rw [hp] at h; cases h
    | some w =>
      rw [hp] at h
      cases ht : toDatetimeAll p vs with
      | none => rw [ht] at h; cases h
      | some ws' =>
        rw [ht] at h
        cases h
        simp [ih ws' ht]

theorem nativeDatetimeCols_eq_nil_iff (df : List Col) :
    nativeDatetimeCols df = [] ↔ ∀ c ∈ df, c.dtype ≠ Dtype.datetime64 := by
  unfold nativeDatetimeCols
  rw [List.map_eq_nil_iff, List.filter_eq_nil_iff]
  simp

theorem nativeDatetimeCols_map_coerce (p : String → Option Int) (df : List Col)
    (h : ∀ c ∈ df, c.dtype ≠ Dtype.datetime64) :
    nativeDatetimeCols (df.map (fun c => (coerceCol p c).1))
      = (df.filter (fun c => (coerceCol p c).2)).map Col.name := by
  unfold nativeDatetimeCols
  rw [List.filter_map, List.map_map]
  have hpred : ∀ c ∈ df,
      ((fun c : Col => decide (c.dtype = Dtype.datetime64)) ∘ fun c => (coerceCol p c).1) c
        = (coerceCol p c).2 := by
    intro c hc
    by_cases hflag : (coerceCol p c).2 = true
    · simp [Function.comp, (coerceCol_of_flag_true p c hflag).2.1, hflag]
    · have hfl : (coerceCol p c).2 = false := by revert hflag; cases (coerceCol p c).2 <;> simp
      rw [Function.comp, coerceCol_of_flag_false p c hfl, hfl]
      simp [h c hc]
  rw [List.filter_congr hpred]
  exact List.map_congr_left (fun c _ => coerceCol_name p c)

/-- C6: classification is idempotent — classifying the dataframe produced
by a first classification yields the same datetime set, and the coerced
dataframe is a fixed point of classification. -/
theorem classify_idempotent (p : String → Option Int) (df : List Col) :
    datetime_cols p (classifyDF p df) = datetime_cols p df
      ∧ classifyDF p (classifyDF p df) = classifyDF p df := by
  by_cases h : nativeDatetimeCols df = []
  · have hno := (nativeDatetimeCols_eq_nil_iff df).mp h
    have hc : classifyDF p df = df.map (fun c => (coerceCol p c).1) := by
      unfold classifyDF; rw [if_pos h]
    have hnat := nativeDatetimeCols_map_coerce p df hno
    by_cases hS : (df.filter (fun c => (coerceCol p c).2)).map Col.name = []
    · have hall : ∀ c ∈ df, (coerceCol p c).2 = false := by
        intro c hc'
        have hnot := (List.filter_eq_nil_iff.mp (List.map_eq_nil_iff.mp hS)) c hc'
        revert hnot; cases (coerceCol p c).2 <;> simp
      have hid : df.map (fun c => (coerceCol p c).1) = df := by
        have hmap : ∀ c ∈ df, (coerceCol p c).1 = c :=
          fun c hc' => coerceCol_of_flag_false p c (hall c hc')
        rw [List.map_congr_left hmap, List.map_id']
      have hfix : classifyDF p df = df := by rw [hc, hid]
      rw [hfix]
      exact ⟨rfl, hfix⟩
    · have hne : nativeDatetimeCols (df.map (fun c => (coerceCol p c).1)) ≠ [] := by
        rw [hnat]; exact hS
      constructor
      · rw [hc]
        unfold datetime_cols
        rw [if_neg hne, if_pos h, hnat]
      · rw [hc]
        unfold classifyDF
        rw [if_neg hne]
  · have hc : classifyDF p df = df := by unfold classifyDF; rw [if_neg h]
    rw [hc]
    exact ⟨rfl, hc⟩

/-- C8: the text-to-timestamp coercion pass runs only when the native
datetime set is empty — a dataframe with at least one native datetime
column is returned unchanged (no text column is touched) and the datetime
set is exactly the native one. -/
theorem coercion_only_when_no_native (p : String → Option Int) (df : List Col)
    (h : nativeDatetimeCols df ≠ []) :
    classifyDF p df = df ∧ datetime_cols p df = nativeDatetimeCols df := by
  unfold classifyDF datetime_cols
  rw [if_neg h, if_neg h]
  exact ⟨rfl, rfl⟩

/-- A concrete dataframe with a native datetime column and a parseable
text column. -/
def dfNat : List Col :=
  [⟨"d", Dtype.datetime64, [Value.vTime 0]⟩,
   ⟨"s", Dtype.object, [Value.vStr "2020-01-01"]⟩]

/-- Witness for C8: on `dfNat` the coercion pass is skipped even though
column `s` would fully parse. -/
theorem coercion_only_when_no_native_witness :
    nativeDatetimeCols dfNat ≠ []
      ∧ (classifyDF isoDate dfNat = dfNat
          ∧ datetime_cols isoDate dfNat = nativeDatetimeCols dfNat) :=
  ⟨by decide, coercion_only_when_no_native isoDate dfNat (by decide)⟩

/-- C5: a text (object-dtype) column with at least one unparseable value
is left unchanged by classification and is excluded from the datetime
set; the `except: pass` makes the failure silent (the model is total, no
error case exists). -/
theorem silent_exclusion (p : String → Option Int) (df : List Col) (c : Col)
    (hnd : (df.map Col.name).Nodup) (hc : c ∈ df) (hobj : c.dtype = Dtype.object)
    (hbad : ∃ v ∈ c.vals, parseVal p v = none) :
    c ∈ classifyDF p df ∧ c.name ∉ datetime_cols p df := by
  have hnone := toDatetimeAll_eq_none p c.vals hbad
  have hcc : coerceCol p c = (c, false) := by simp [coerceCol, hobj, hnone]
  constructor
  · unfold classifyDF
    split
    · exact List.mem_map.mpr ⟨c, hc, by rw [hcc]⟩
    · exact hc
  · unfold datetime_cols
    split
    · intro hmem
      rcases List.mem_map.mp hmem with ⟨c', hc', hname⟩
      have hcf := List.mem_filter.mp hc'
      have hceq : c' = c := List.inj_on_of_nodup_map hnd hcf.1 hc hname
      have hflag := hcf.2
      rw [hceq, hcc] at hflag
      cases hflag
    · intro hmem
      unfold nativeDatetimeCols at hmem
      rcases List.mem_map.mp hmem with ⟨c', hc', hname⟩
      have hcf := List.mem_filter.mp hc'
      have hceq : c' = c := List.inj_on_of_nodup_map hnd hcf.1 hc hname
      rw [hceq] at hcf
      have hdt := of_decide_eq_true hcf.2
      rw [hobj] at hdt
      cases hdt

/-- A concrete dataframe whose only column is text with one unparseable
value. -/
def dfBad : List Col :=
  [⟨"b", Dtype.object, [Value.vStr "2020-01-01", Value.vStr "not-a-date"]⟩]

/-- Witness for C5: the column `["2020-01-01", "not-a-date"]` is kept
as-is and excluded from the datetime set. -/
theorem silent_exclusion_witness :
    ((dfBad.map Col.name).Nodup
        ∧ (⟨"b", Dtype.object, [Value.vStr "2020-01-01", Value.vStr "not-a-date"]⟩ : Col) ∈ dfBad
        ∧ (⟨"b", Dtype.object, [Value.vStr "2020-01-01", Value.vStr "not-a-date"]⟩ : Col).dtype
            = Dtype.object
        ∧ ∃ v ∈ (⟨"b", Dtype.object,
            [Value.vStr "2020-01-01", Value.vStr "not-a-date"]⟩ : Col).vals,
              parseVal isoDate v = none)
      ∧ ((⟨"b", Dtype.object, [Value.vStr "2020-01-01", Value.vStr "not-a-date"]⟩ : Col)
            ∈ classifyDF isoDate dfBad
          ∧ "b" ∉ datetime_cols isoDate dfBad) :=
  ⟨by decide,
    silent_exclusion isoDate dfBad _ (by decide) (by decide) (by decide) (by decide)⟩

/-- C10: classification mutates at most the successfully coerced columns:
the column list keeps its length and order, every column keeps its name
and its number of rows (in row order), and each column is either returned
unchanged or is an object column upgraded to `datetime64` whose values
are the elementwise parses of the original values. -/
theorem classify_mutation_bound (p : String → Option Int) (df : List Col) :
    List.Forall₂ (fun c c' : Col =>
        c'.name = c.name ∧ c'.vals.length = c.vals.length
          ∧ (c' = c ∨ (c.dtype = Dtype.object ∧ c'.dtype = Dtype.datetime64
              ∧ toDatetimeAll p c.vals = some c'.vals)))
      df (classifyDF p df) := by
  unfold classifyDF
  split
  · rw [List.forall₂_map_right_iff, List.forall₂_same]
    intro c _
    by_cases hflag : (coerceCol p c).2 = true
    · rcases coerceCol_of_flag_true p c hflag with ⟨hobj, hdt, hsome⟩
      exact ⟨coerceCol_name p c, toDatetimeAll_length p c.vals _ hsome,
        Or.inr ⟨hobj, hdt, hsome⟩⟩
    · have hfl : (coerceCol p c).2 = false := by revert hflag; cases (coerceCol p c).2 <;> simp
      rw [coerceCol_of_flag_false p c hfl]
      exact ⟨rfl, rfl, Or.inl rfl⟩
  · rw [List.forall₂_same]
    intro c _
    exact ⟨rfl, rfl, Or.inl rfl⟩

/-- C3 counterexample: an `int32` column is integer-typed in the spec's
sense ("of any width") and well typed, yet `select_dtypes(include=
['float64', 'int64'])` leaves it out of the numeric set. -/
theorem numeric_set_incomplete_cex :
    numericTypedSpec Dtype.int32 = true
      ∧ (∀ c ∈ [(⟨"a", Dtype.int32, [Value.vInt 1]⟩ : Col)],
          ∀ v ∈ c.vals, typeOk c.dtype v = true)
      ∧ "a" ∉ numeric_cols [⟨"a", Dtype.int32, [Value.vInt 1]⟩] := by
  decide

/-- C3 amended: for a well-typed dataframe with distinct column names,
every column in the numeric set has only numeric values, and every column
whose dtype is exactly `int64` or `float64` (the two dtypes the code
selects, rather than integers and floats of any width) is in the numeric
set. -/
theorem numeric_set_sound_complete64 (df : List Col)
    (hnd : (df.map Col.name).Nodup)
    (hwt : ∀ c ∈ df, ∀ v ∈ c.vals, typeOk c.dtype v = true) :
    (∀ c ∈ df, c.name ∈ numeric_cols df → ∀ v ∈ c.vals, v.isNumeric = true)
      ∧ ∀ c ∈ df, (c.dtype = Dtype.float64 ∨ c.dtype = Dtype.int64) →
          c.name ∈ numeric_cols df := by
  constructor
  · intro c hc hmem v hv
    unfold numeric_cols at hmem
    rcases List.mem_map.mp hmem with ⟨c', hc', hname⟩
    have hcf := List.mem_filter.mp hc'
    have hceq : c' = c := List.inj_on_of_nodup_map hnd hcf.1 hc hname
    have hd := of_decide_eq_true hcf.2
    rw [hceq] at hd
    have hok := hwt c hc v hv
    rcases hd with h64 | h64 <;> rw [h64] at hok <;> cases v <;>
      first
        | rfl
        | simp [typeOk] at hok
  · intro c hc hd
    unfold numeric_cols
    exact List.mem_map.mpr ⟨c, List.mem_filter.mpr ⟨hc, decide_eq_true hd⟩, rfl⟩

/-- A concrete well-typed dataframe with an `int64` column and a text
column. -/
def dfNum : List Col :=
  [⟨"x", Dtype.int64, [Value.vInt 3]⟩, ⟨"s", Dtype.object, [Value.vStr "hi"]⟩]

/-- Witness for the amended C3 on `dfNum`. -/
theorem numeric_set_sound_complete64_witness :
    ((dfNum.map Col.name).Nodup ∧ (∀ c ∈ dfNum, ∀ v ∈ c.vals, typeOk c.dtype v = true))
      ∧ ((∀ c ∈ dfNum, c.name ∈ numeric_cols dfNum → ∀ v ∈ c.vals, v.isNumeric = true)
          ∧ ∀ c ∈ dfNum, (c.dtype = Dtype.float64 ∨ c.dtype = Dtype.int64) →
              c.name ∈ numeric_cols dfNum) :=
  ⟨⟨by decide, by decide⟩, numeric_set_sound_complete64 dfNum (by decide) (by decide)⟩

end Pltt
